import Mathlib

/-!
Verification development for the tri-recruiting entity-resolution pipeline.

This file gives a shallow embedding, in Lean 4, of the parts of the Python
source that the checked claims are about:

* the match scorer `compute_match_score` of `src/etl/match.py` and its
  variant in `src/etl/ai_agent.py` (they differ only in the name-ratio
  weight: `0.6` versus `0.9`);
* the decision policy of `process_all_runners` in `src/etl/ai_agent.py`
  with the module constants `MATCH_THRESHOLD`/`MANUAL_THRESHOLD`;
* the time normalizers `parse_time_to_seconds` (`src/etl/standards_loader.py`)
  and `_parse_time_to_seconds` (`src/etl/tfrrs_html_processor.py`);
* the page-context resolvers `_determine_event_from_context` and
  `_determine_gender_from_context` (`src/etl/tfrrs_html_processor.py`);
* the persistence operations `store_athletes`
  (`src/etl/tfrrs_html_processor.py`), `upsert_swimmer` and
  `update_match_record` (`src/etl/ai_agent.py`) over the SQLAlchemy models
  of `src/db/models.py`;
* the benchmark classifier of spec §4.6 (no implementation exists under
  `src/`; it is modelled from the spec, see `classify`).

Modelling conventions:

* Python strings are handled as `List Char` (obtained via `String.data`);
  `str.strip()`, `str.split`, substring tests and `int()`/`float()`
  literal parsing are re-implemented below, faithful to the source's use.
* Python `Decimal` values are exact; they are modelled as `ℚ`.  A parsed
  `float` literal is modelled by its exact decimal value
  (numerator over a power of ten); the source routes every float through
  `Decimal(str(...)).quantize(Decimal('0.01'))`, so results sit on the
  centisecond grid and the float detour does not change the quantized
  value for the inputs the claims are about.
* `rapidfuzz.fuzz.token_set_ratio` is an external library primitive; the
  scorer is parameterized by a similarity function `ratio` together with
  the documented range hypothesis `0 ≤ ratio a b ≤ 100`.  Concrete
  instances in witnesses only ever query it on equal strings, where
  `token_set_ratio` is exactly 100.
* SQLAlchemy sessions are modelled by explicit row lists.  `session.merge`
  on a transient object whose autoincrement primary key is unset performs
  an INSERT; a database uniqueness violation at commit raises
  `SQLAlchemyError`, which the source catches and answers with
  `session.rollback()`, leaving the table unchanged.
-/

/-! ## Python string and number primitives -/

/-- Characters of a Python string (`String.data` reduces definitionally). -/
def strChars (s : String) : List Char := s.data

/-- Python `str.strip()` on a character list: drop leading and trailing
whitespace. -/
def trimWS (cs : List Char) : List Char :=
  ((cs.dropWhile Char.isWhitespace).reverse.dropWhile Char.isWhitespace).reverse

/-- Value of a digit list, most significant first (helper for `int()` and
`float()` literal parsing). -/
def digitsToNat (cs : List Char) : ℕ :=
  cs.foldl (fun a c => 10 * a + (c.toNat - 48)) 0

/-- Python `int(s)`: optional surrounding whitespace, optional sign, then
one or more decimal digits; anything else raises `ValueError` (modelled as
`none`). -/
def pyIntChars (cs : List Char) : Option ℤ :=
  let t := trimWS cs
  let sgn : ℤ := if t.head? = some '-' then -1 else 1
  let t2 := if t.head? = some '-' ∨ t.head? = some '+' then t.tail else t
  if t2 ≠ [] ∧ t2.all Char.isDigit then some (sgn * (digitsToNat t2 : ℤ)) else none

/-- Python `s.split(sep)` for a single-character separator. -/
def splitOnChar (sep : Char) : List Char → List (List Char)
  | [] => [[]]
  | c :: cs =>
    match splitOnChar sep cs with
    | [] => [[]]
    | h :: t => if c = sep then [] :: h :: t else (c :: h) :: t

/-- Python `s.split(" / ")`: split on the three-character separator,
scanning left to right without overlap (used by
`standards_loader.parse_time_to_seconds` for dual `SCY / LCM` times). -/
def splitOnSlashSep : List Char → List (List Char)
  | ' ' :: '/' :: ' ' :: rest => [] :: splitOnSlashSep rest
  | c :: rest =>
    match splitOnSlashSep rest with
    | [] => [[c]]
    | h :: t => (c :: h) :: t
  | [] => [[]]

/-- Python `needle in hay` on strings: substring test. -/
def pySubstr (needle hay : List Char) : Bool :=
  (hay.tails.any fun suf => needle.isPrefixOf suf)

/-- Python `str.lower()` (ASCII case folding, which is all the source's
vocabulary needs). -/
def pyLower (cs : List Char) : List Char := cs.map Char.toLower

/-- Python `int(x)` on a number: truncation toward zero. -/
def pyTruncInt (q : ℚ) : ℤ := if 0 ≤ q then ⌊q⌋ else ⌈q⌉

/-! ## Match scorer (`src/etl/match.py` and `src/etl/ai_agent.py`) -/

/-- Scoring constant from `src/etl/match.py` line 4 and
`src/etl/ai_agent.py` line 170. -/
def MATCH_THRESHOLD : ℤ := 90

/-- Scoring constant from `src/etl/match.py` line 5 and
`src/etl/ai_agent.py` line 171. -/
def MANUAL_THRESHOLD : ℤ := 70

/-- Scoring constant `HOMETOWN_EXACT_BONUS` (both scorer modules). -/
def HOMETOWN_EXACT_BONUS : ℚ := 20

/-- Scoring constant `HOMETOWN_FUZZY_BONUS` (both scorer modules). -/
def HOMETOWN_FUZZY_BONUS : ℚ := 10

/-- Scoring constant `BIRTH_YEAR_EXACT_BONUS` (both scorer modules). -/
def BIRTH_YEAR_EXACT_BONUS : ℚ := 15

/-- Scoring constant `BIRTH_YEAR_OFF_BY_ONE_BONUS` (both scorer modules). -/
def BIRTH_YEAR_OFF_BY_ONE_BONUS : ℚ := 5

/-- Scoring constant `SCHOOL_FUZZY_BONUS` (both scorer modules). -/
def SCHOOL_FUZZY_BONUS : ℚ := 10

/-- The runner dictionary fields read by `compute_match_score`
(`runner['first_name']`, `runner['last_name']`, and the `.get` accesses
for `hometown`, `birth_year`, `college_team`). -/
structure RunnerRec where
  first_name : String
  last_name : String
  hometown : Option String
  birth_year : Option ℤ
  college_team : Option String
deriving DecidableEq, Repr

/-- The candidate dictionary fields read by `compute_match_score`
(`candidate.get('name', '')` and the `.get` accesses for `hometown`,
`birth_year`, `swim_team`). -/
structure CandidateRec where
  name : String
  hometown : Option String
  birth_year : Option ℤ
  swim_team : Option String
deriving DecidableEq, Repr

/-- Python `f"{runner['first_name']} {runner['last_name']}"`. -/
def runnerFullName (r : RunnerRec) : String :=
  r.first_name ++ (" ") ++ r.last_name

/-- The rejection rationale
`f"Name ratio {name_ratio} below 75: no match."`. -/
def rejectExplanation (q : ℚ) : String :=
  ("Name ratio ") ++ toString q ++ (" below 75: no match.")

/-- The hometown-bonus block of `compute_match_score`
(`src/etl/match.py` lines 29-41): `runner.get('hometown') or ''` on both
sides, both must be non-empty (Python truthiness on strings); exact
match is case-insensitive, otherwise a fuzzy ratio of at least 80 earns
the smaller bonus.  Returns the bonus together with the
`explanation_parts` entries it appends. -/
def hometownBonus (ratio : String → String → ℚ)
    (runner : RunnerRec) (candidate : CandidateRec) : ℚ × List String :=
  let r_ht := runner.hometown.getD ("")
  let c_ht := candidate.hometown.getD ("")
  if r_ht ≠ "" ∧ c_ht ≠ "" then
    if pyLower (strChars r_ht) = pyLower (strChars c_ht) then
      (HOMETOWN_EXACT_BONUS, [("hometown_exact_bonus=") ++ toString HOMETOWN_EXACT_BONUS])
    else if 80 ≤ ratio r_ht c_ht then
      (HOMETOWN_FUZZY_BONUS, [("hometown_fuzzy_bonus=") ++ toString HOMETOWN_FUZZY_BONUS])
    else (0, [])
  else (0, [])

/-- The birth-year-bonus block of `compute_match_score`
(`src/etl/match.py` lines 43-53): `if r_by and c_by` is false when
either side is `None` or the (falsy) number 0. -/
def birthYearBonus (runner : RunnerRec) (candidate : CandidateRec) : ℚ × List String :=
  match runner.birth_year, candidate.birth_year with
  | some rb, some cb =>
    if rb ≠ 0 ∧ cb ≠ 0 then
      if rb = cb then
        (BIRTH_YEAR_EXACT_BONUS, [("birth_year_exact_bonus=") ++ toString BIRTH_YEAR_EXACT_BONUS])
      else if (rb - cb).natAbs = 1 then
        (BIRTH_YEAR_OFF_BY_ONE_BONUS,
          [("birth_year_off_by_one_bonus=") ++ toString BIRTH_YEAR_OFF_BY_ONE_BONUS])
      else (0, [])
    else (0, [])
  | _, _ => (0, [])

/-- The school/team-bonus block of `compute_match_score`
(`src/etl/match.py` lines 55-63). -/
def schoolBonus (ratio : String → String → ℚ)
    (runner : RunnerRec) (candidate : CandidateRec) : ℚ × List String :=
  let r_team := runner.college_team.getD ("")
  let c_team := candidate.swim_team.getD ("")
  if r_team ≠ "" ∧ c_team ≠ "" then
    if 80 ≤ ratio r_team c_team then
      (SCHOOL_FUZZY_BONUS, [("school_fuzzy_bonus=") ++ toString SCHOOL_FUZZY_BONUS])
    else (0, [])
  else (0, [])

/-- `compute_match_score`, common to `src/etl/match.py` (weight `.6`,
lines 13-69) and `src/etl/ai_agent.py` (weight `0.9`, lines 179-235);
the two sources are character-for-character identical except for the
name-ratio weight in the final total, so the weight is a parameter and
the two module-level functions are named wrappers below.  `ratio` stands
for the external `rapidfuzz.fuzz.token_set_ratio` primitive.  Returns
`(total_score, explanation)`. -/
def scoreWithWeight (w : ℚ) (ratio : String → String → ℚ)
    (runner : RunnerRec) (candidate : CandidateRec) : ℤ × String :=
  let runner_name := runnerFullName runner
  let candidate_name := candidate.name
  let name_ratio := ratio runner_name candidate_name
  if name_ratio < 75 then
    (0, rejectExplanation name_ratio)
  else
    let hometown := hometownBonus ratio runner candidate
    let birth := birthYearBonus runner candidate
    let school := schoolBonus ratio runner candidate
    let total_score := pyTruncInt (name_ratio * w + hometown.1 + birth.1 + school.1)
    let parts : List String :=
      [("name_ratio=") ++ toString name_ratio] ++ hometown.2 ++ birth.2 ++ school.2
        ++ [("total_score=") ++ toString total_score]
    (total_score, String.intercalate ("; ") parts)

/-- `compute_match_score` of `src/etl/match.py` (line 66:
`int(name_ratio * .6 + hometown_bonus + birth_bonus + school_bonus)`). -/
def compute_match_score (ratio : String → String → ℚ)
    (runner : RunnerRec) (candidate : CandidateRec) : ℤ × String :=
  scoreWithWeight (6 / 10) ratio runner candidate

/-- `compute_match_score` of `src/etl/ai_agent.py` (line 232:
`int((name_ratio * 0.9) + hometown_bonus + birth_bonus + school_bonus)`). -/
def ai_compute_match_score (ratio : String → String → ℚ)
    (runner : RunnerRec) (candidate : CandidateRec) : ℤ × String :=
  scoreWithWeight (9 / 10) ratio runner candidate

/-- Decision policy of `process_all_runners` (`src/etl/ai_agent.py`
lines 356-361): compare the score against the module constants
`MATCH_THRESHOLD` and `MANUAL_THRESHOLD`. -/
def decideStatus (score : ℤ) : String :=
  if MATCH_THRESHOLD ≤ score then ("auto_verified")
  else if MANUAL_THRESHOLD ≤ score then ("manual_review")
  else ("no_match")

/-! ## Time normalizers -/

/-- Exact decimal value of a Python `float` literal, as numerator and
number of fraction digits (`value = num / 10 ^ scale`).  This models the
`Decimal(str(float(...)))` detour of the source exactly on the
centisecond grid the source quantizes to. -/
def pyFloatDec (cs : List Char) : Option (ℤ × ℕ) :=
  let t := trimWS cs
  let sgn : ℤ := if t.head? = some '-' then -1 else 1
  let t2 := if t.head? = some '-' ∨ t.head? = some '+' then t.tail else t
  let ip := t2.takeWhile Char.isDigit
  let r1 := t2.dropWhile Char.isDigit
  if r1 = [] then
    if ip = [] then none else some (sgn * (digitsToNat ip : ℤ), 0)
  else if r1.head? = some '.' then
    let fr := r1.tail
    let fp := fr.takeWhile Char.isDigit
    let r2 := fr.dropWhile Char.isDigit
    if r2 = [] ∧ ¬(ip = [] ∧ fp = []) then
      some (sgn * ((digitsToNat ip * 10 ^ fp.length + digitsToNat fp : ℕ) : ℤ), fp.length)
    else none
  else none

/-- `Decimal(...).quantize(Decimal('0.01'))` with the default
`ROUND_HALF_EVEN`, on the exact decimal `n / 10 ^ k` (non-negative in
every use below): the number of centiseconds of the quantized value. -/
def quantizeCentis (n : ℤ) (k : ℕ) : ℤ :=
  if k ≤ 2 then n * 10 ^ (2 - k)
  else
    let d : ℤ := 10 ^ (k - 2)
    let q := n / d
    let r := n % d
    if 2 * r < d then q else if d < 2 * r then q + 1 else if q % 2 = 0 then q else q + 1

/-- `parse_time_to_seconds` of `src/etl/standards_loader.py`
(lines 57-117): empty/whitespace input fails; a dual `"A / B"` value is
replaced by its second (LCM) side; then `HH:MM:SS` (two colons, integer
parts, no quantize), `MM:SS(.ss)` (one colon, quantized to two decimals)
or plain seconds (quantized) are accepted; every `ValueError` becomes
`None`.  `parseTimeBody` is the colon-count dispatch of lines 86-117
(applied after the stripping and dual-value selection of lines 72-84,
which the wrapper below performs). -/
def parseTimeBody (t : List Char) : Option ℚ :=
  if t.count ':' = 2 then
    match splitOnChar ':' t with
    | [p0, p1, p2] =>
      match pyIntChars p0, pyIntChars p1, pyIntChars p2 with
      | some hours, some minutes, some seconds =>
        some (mkRat (hours * 3600 + minutes * 60 + seconds) 1)
      | _, _, _ => none
    | _ => none
  else if t.count ':' = 1 then
    match splitOnChar ':' t with
    | [p0, p1] =>
      match pyIntChars p0, pyFloatDec p1 with
      | some minutes, some nk =>
        some (mkRat (quantizeCentis (minutes * 60 * 10 ^ nk.2 + nk.1) nk.2) 100)
      | _, _ => none
    | _ => none
  else
    match pyFloatDec t with
    | some nk => some (mkRat (quantizeCentis nk.1 nk.2) 100)
    | none => none

/-- `parse_time_to_seconds` of `src/etl/standards_loader.py`: the
empty/whitespace check, the dual `"A / B"` selection of the second (LCM)
side, the re-strip, then the colon-count dispatch `parseTimeBody`. -/
def parse_time_to_seconds (s : String) : Option ℚ :=
  let cs0 := strChars s
  if trimWS cs0 = [] then none
  else
    let t1 := trimWS cs0
    let t2 :=
      match splitOnSlashSep t1 with
      | [_, b] => trimWS b
      | _ => t1
    parseTimeBody (trimWS t2)

/-- Match the regex `\d+\.\d+` at the head of `cs` (greedy), returning
the matched characters. -/
def matchDecTail (cs : List Char) : Option (List Char) :=
  let d1 := cs.takeWhile Char.isDigit
  let r1 := cs.dropWhile Char.isDigit
  if d1 = [] then none
  else
    match r1 with
    | '.' :: r2 =>
      let d2 := r2.takeWhile Char.isDigit
      if d2 = [] then none else some (d1 ++ '.' :: d2)
    | _ => none

/-- Match the regex `(\d+:)?\d+\.\d+` at the head of `cs`, with the
optional group tried greedily first, as Python's backtracking does. -/
def matchTimeDec (cs : List Char) : Option (List Char) :=
  let g := cs.takeWhile Char.isDigit
  let rg := cs.dropWhile Char.isDigit
  match
    (if g ≠ [] then
      match rg with
      | ':' :: r => (matchDecTail r).map (fun t => g ++ ':' :: t)
      | _ => none
    else none) with
  | some m => some m
  | none => matchDecTail cs

/-- Match the regex `\d+` at the head of `cs`. -/
def matchIntTail (cs : List Char) : Option (List Char) :=
  let d1 := cs.takeWhile Char.isDigit
  if d1 = [] then none else some d1

/-- Match the regex `(\d+:)?\d+` at the head of `cs`. -/
def matchTimeInt (cs : List Char) : Option (List Char) :=
  let g := cs.takeWhile Char.isDigit
  let rg := cs.dropWhile Char.isDigit
  match
    (if g ≠ [] then
      match rg with
      | ':' :: r => (matchIntTail r).map (fun t => g ++ ':' :: t)
      | _ => none
    else none) with
  | some m => some m
  | none => matchIntTail cs

/-- `re.search`: try the anchored matcher at every start position from
the left; the first position that matches wins. -/
def searchPat (f : List Char → Option (List Char)) : List Char → Option (List Char)
  | [] => f []
  | c :: cs =>
    match f (c :: cs) with
    | some m => some m
    | none => searchPat f cs

/-- `_parse_time_to_seconds` of `src/etl/tfrrs_html_processor.py`
(lines 49-83): extract the leftmost `(\d+:)?\d+\.\d+` substring (or,
failing that, `(\d+:)?\d+`); a `M:SS` match is minutes and seconds, a
plain match is seconds; both are quantized to two decimals; anything
else (including the `len(parts) ≠ 2` fall-through) returns `None`.
There is no hours branch: this parser never interprets three
colon-separated fields. -/
def tfrrs_parse_time_to_seconds (s : String) : Option ℚ :=
  let cs0 := strChars s
  if trimWS cs0 = [] then none
  else
    let stripped := trimWS cs0
    let mres :=
      match searchPat matchTimeDec stripped with
      | some m => some m
      | none => searchPat matchTimeInt stripped
    match mres with
    | none => none
    | some cleaned =>
      if cleaned.contains ':' then
        match splitOnChar ':' cleaned with
        | [p0, p1] =>
          match pyIntChars p0, pyFloatDec p1 with
          | some mins, some nk =>
            some (mkRat (quantizeCentis (mins * 60 * 10 ^ nk.2 + nk.1) nk.2) 100)
          | _, _ => none
        | _ => none
      else
        match pyFloatDec cleaned with
        | some nk => some (mkRat (quantizeCentis nk.1 nk.2) 100)
        | none => none

/-! ## Page-context resolvers (`src/etl/tfrrs_html_processor.py`) -/

/-- `_determine_event_from_context` (lines 86-106): pattern-match the
known distance vocabulary against the lower-cased page text; the
fall-through is the explicit sentinel `"unknown_event"`. -/
def determine_event_from_context (text : String) : String :=
  let t := pyLower (strChars text)
  if pySubstr (strChars ("800")) t && pySubstr (strChars ("m")) t then ("800m")
  else if pySubstr (strChars ("1500")) t || pySubstr (strChars ("fifteen")) t then ("1500m")
  else if pySubstr (strChars ("5000")) t || pySubstr (strChars ("5k")) t then ("5000m")
  else if pySubstr (strChars ("10000")) t || pySubstr (strChars ("10k")) t then ("10000m")
  else if pySubstr (strChars ("steeplechase")) t || pySubstr (strChars ("steeple")) t then
    ("3000m_steeplechase")
  else if pySubstr (strChars ("3000")) t then ("3000m")
  else if pySubstr (strChars ("mile")) t then ("mile")
  else ("unknown_event")

/-- `_determine_gender_from_context` (lines 109-118): `"F"` on
`women`/`girls`, `"M"` on `men`/`boys`, and `"M"` as the commented
`# Default assumption` fall-through — not an unknown sentinel. -/
def determine_gender_from_context (text : String) : String :=
  let t := pyLower (strChars text)
  if pySubstr (strChars ("women")) t || pySubstr (strChars ("girls")) t then ("F")
  else if pySubstr (strChars ("men")) t || pySubstr (strChars ("boys")) t then ("M")
  else ("M")

/-! ## Benchmark classifier -/

/-- One benchmark tier: label and cutoff, ordered most-elite first in a
ladder (spec §3 `BenchmarkStandard`, `src/db/models.py` `TimeStandard`). -/
structure BenchmarkTier where
  tier_label : String
  cutoff_seconds : ℚ
deriving DecidableEq, Repr

/-- Modelled from the spec: the Classifier component (spec §4.6) has no
implementation under `src/` — only the `classification` table schema
(`src/db/models.py`) and benchmark data (`src/etl/extract_standards.py`)
exist.  Following the spec's words: benchmarks for one
(gender, age_group, event_key) are ordered from most-elite to
least-elite; a time is assigned the most-elite tier whose cutoff it
meets or betters (`time ≤ cutoff`); if no tier is met the result is
`none` (Unclassified), never the least-elite tier. -/
def classify (ladder : List BenchmarkTier) (time_seconds : ℚ) : Option BenchmarkTier :=
  ladder.find? (fun b => decide (time_seconds ≤ b.cutoff_seconds))

/-- The men's 200-free long-course ladder, cutoffs from
`src/etl/extract_standards.py` lines 244-249 (`World Leading` 109.50,
`Internationally Ranked` 113.00, `Nationally Competitive` 116.50,
`Development Potential` 120.00). -/
def mens200FreeLadder : List BenchmarkTier :=
  [⟨("World Leading"), mkRat 10950 100⟩,
   ⟨("Internationally Ranked"), mkRat 11300 100⟩,
   ⟨("Nationally Competitive"), mkRat 11650 100⟩,
   ⟨("Development Potential"), mkRat 12000 100⟩]

/-! ## Persistence operations -/

/-- A row of the `runners` table (`src/db/models.py` lines 55-97): the
primary key is autoincrement, and the name columns carry ordinary
(non-unique) indexes — the model declares no uniqueness on
`(first_name, last_name)`. -/
structure RunnerRow where
  runner_id : ℕ
  first_name : String
  last_name : String
  college_team : String
  event : String
  performance_time : ℚ
  year : ℕ
  gender : String
  birth_year : Option ℤ
deriving DecidableEq, Repr

/-- The athlete dictionary fields that `store_athletes` reads. -/
structure AthleteData where
  first_name : String
  last_name : String
  college_team : String
  event : String
  performance_time : ℚ
  year_scraped : ℕ
  gender : String
deriving DecidableEq, Repr

/-- Next autoincrement id for the `runners` table. -/
def nextRunnerId (db : List RunnerRow) : ℕ :=
  (db.map RunnerRow.runner_id).foldl max 0 + 1

/-- `store_athletes` of `src/etl/tfrrs_html_processor.py`
(lines 300-331): each athlete dictionary becomes a `Runner` constructed
WITHOUT a primary key, so `session.merge` has no identity to merge into
and the flush INSERTs a fresh row; nothing constrains
`(first_name, last_name)`, so every call appends. -/
def store_athletes (db : List RunnerRow) (athletes : List AthleteData) : List RunnerRow :=
  athletes.foldl
    (fun acc a =>
      acc ++ [⟨nextRunnerId acc, a.first_name, a.last_name, a.college_team, a.event,
        a.performance_time, a.year_scraped, a.gender, none⟩])
    db

/-- A row of the `swimmers` table (`src/db/models.py` lines 103-145). -/
structure SwimmerRow where
  swimmer_id : ℕ
  first_name : String
  last_name : String
  hometown : Option String
  birth_year : Option ℤ
  swim_team : Option String
  swimcloud_url : Option String
deriving DecidableEq, Repr

/-- The candidate profile fields that `upsert_swimmer` reads. -/
structure CandidateProfile where
  name : String
  hometown : Option String
  birth_year : Option ℤ
  swim_team : Option String
  swimcloud_url : Option String
deriving DecidableEq, Repr

/-- The swimmer-id extraction of `upsert_swimmer` (`src/etl/ai_agent.py`
lines 243-248): `url.rstrip('/').split('/')`; if the second-to-last part
is `'swimmer'`, the last part is parsed with `int(...)`.  A malformed
last part would raise uncaught in the source; it is modelled as `none`
(the claims only concern well-formed profile URLs). -/
def parseSwimmerId (url : String) : Option ℕ :=
  let parts := splitOnChar '/' ((strChars url).reverse.dropWhile (fun c => c = '/')).reverse
  match parts.reverse with
  | last :: prev :: _ =>
    if prev = strChars ("swimmer") ∧ last ≠ [] ∧ last.all Char.isDigit then
      some (digitsToNat last)
    else none
  | _ => none

/-- Python `candidate.get('name', '').split(' ')[0].lower()` and
`[-1].lower()`. -/
def nameFirstLower (name : String) : String :=
  ⟨pyLower (((splitOnChar ' ' (strChars name)).headD []))⟩

/-- Last space-separated token of the name, lower-cased. -/
def nameLastLower (name : String) : String :=
  ⟨pyLower (((splitOnChar ' ' (strChars name)).reverse.headD []))⟩

/-- The `Swimmer` row that `upsert_swimmer` constructs for a given
primary key. -/
def swimmerRowOf (k : ℕ) (c : CandidateProfile) : SwimmerRow :=
  ⟨k, nameFirstLower c.name, nameLastLower c.name, c.hometown, c.birth_year,
    c.swim_team, c.swimcloud_url⟩

/-- Next autoincrement id for the `swimmers` table. -/
def nextSwimmerId (db : List SwimmerRow) : ℕ :=
  (db.map SwimmerRow.swimmer_id).foldl max 0 + 1

/-- `upsert_swimmer` of `src/etl/ai_agent.py` (lines 238-268): a
`Swimmer` is constructed with `swimmer_id` taken from the profile URL
(or `None`), every other mapped column explicitly set, and passed to
`session.merge`.  With a primary key, merge updates the existing row (or
inserts at that key); with `None`, the flush INSERTs at a fresh
autoincrement key.  Returns the merged row's id alongside the table. -/
def upsert_swimmer (db : List SwimmerRow) (c : CandidateProfile) : List SwimmerRow × ℕ :=
  match parseSwimmerId (c.swimcloud_url.getD ("")) with
  | some k =>
    if db.any (fun row => row.swimmer_id = k) then
      (db.map (fun row => if row.swimmer_id = k then swimmerRowOf k c else row), k)
    else (db ++ [swimmerRowOf k c], k)
  | none =>
    let k := nextSwimmerId db
    (db ++ [swimmerRowOf k c], k)

/-- A row of the `runner_swimmer_match` table (`src/db/models.py`
lines 188-240): surrogate autoincrement primary key `match_id`, a
UNIQUE constraint on `(runner_id, swimmer_id)`, scoring fields, and the
human-review fields `reviewer_notes`/`reviewed_by`/`reviewed_at`. -/
structure MatchRow where
  match_id : ℕ
  runner_id : ℕ
  swimmer_id : ℕ
  match_score : ℤ
  match_explanation : String
  verification_status : String
  matched_on_fields : List String
  reviewer_notes : Option String
  reviewed_by : Option String
  reviewed_at : Option ℕ
deriving DecidableEq, Repr

/-- The matched-fields derivation of `update_match_record`
(`src/etl/ai_agent.py` lines 276-284): textual membership tests against
the explanation string. -/
def deriveMatchedFields (explanation : String) : List String :=
  (if pySubstr (strChars ("name_ratio")) (strChars explanation) then [("name")] else [])
    ++ (if pySubstr (strChars ("hometown")) (strChars explanation) then [("hometown")] else [])
    ++ (if pySubstr (strChars ("birth_year")) (strChars explanation) then [("birth_year")] else [])
    ++ (if pySubstr (strChars ("school")) (strChars explanation) then [("school")] else [])

/-- Next autoincrement id for the match table. -/
def nextMatchId (db : List MatchRow) : ℕ :=
  (db.map MatchRow.match_id).foldl max 0 + 1

/-- `update_match_record` of `src/etl/ai_agent.py` (lines 271-300): the
`RunnerSwimmerMatch` is constructed WITHOUT its autoincrement primary
key `match_id`, so `session.merge` has no identity to merge into and the
flush INSERTs a fresh row.  When a row for the same
`(runner_id, swimmer_id)` already exists, the UNIQUE constraint
`unique_runner_swimmer_pair` rejects that INSERT at commit; the caught
`SQLAlchemyError` is answered by `session.rollback()`, so the table is
left completely unchanged — the existing row's score, status and
rationale are NOT updated. -/
def update_match_record (db : List MatchRow) (runner_id swimmer_id : ℕ)
    (score : ℤ) (status explanation : String) : List MatchRow :=
  let fields := deriveMatchedFields explanation
  if db.any (fun row => row.runner_id = runner_id ∧ row.swimmer_id = swimmer_id) then db
  else
    db ++ [⟨nextMatchId db, runner_id, swimmer_id, score, explanation, status, fields,
      none, none, none⟩]

/-! ## Scorer lemmas -/

theorem hometownBonus_bounds (ratio : String → String → ℚ) (r : RunnerRec) (c : CandidateRec) :
    0 ≤ (hometownBonus ratio r c).1 ∧ (hometownBonus ratio r c).1 ≤ 20 := by
  simp only [hometownBonus]
  split_ifs <;> norm_num [HOMETOWN_EXACT_BONUS, HOMETOWN_FUZZY_BONUS]

theorem birthYearBonus_bounds (r : RunnerRec) (c : CandidateRec) :
    0 ≤ (birthYearBonus r c).1 ∧ (birthYearBonus r c).1 ≤ 15 := by
  rcases hr : r.birth_year with _ | rb <;> rcases hc : c.birth_year with _ | cb <;>
    simp only [birthYearBonus, hr, hc] <;> (try split_ifs) <;>
    norm_num [BIRTH_YEAR_EXACT_BONUS, BIRTH_YEAR_OFF_BY_ONE_BONUS]

theorem schoolBonus_bounds (ratio : String → String → ℚ) (r : RunnerRec) (c : CandidateRec) :
    0 ≤ (schoolBonus ratio r c).1 ∧ (schoolBonus ratio r c).1 ≤ 10 := by
  simp only [schoolBonus]
  split_ifs <;> norm_num [SCHOOL_FUZZY_BONUS]

theorem scoreWithWeight_fst_bounds (w : ℚ) (hw : 0 ≤ w) (ratio : String → String → ℚ)
    (hr : ∀ a b, 0 ≤ ratio a b ∧ ratio a b ≤ 100) (r : RunnerRec) (c : CandidateRec) :
    0 ≤ (scoreWithWeight w ratio r c).1 ∧ (scoreWithWeight w ratio r c).1 ≤ ⌊100 * w + 45⌋ := by
  have hfl : (0 : ℤ) ≤ ⌊(100 : ℚ) * w + 45⌋ := by
    refine Int.le_floor.mpr ?_
    push_cast
    positivity
  simp only [scoreWithWeight]
  split_ifs with h
  · exact ⟨le_refl 0, hfl⟩
  · obtain ⟨hn0, hn100⟩ := hr (runnerFullName r) c.name
    obtain ⟨hh0, hh20⟩ := hometownBonus_bounds ratio r c
    obtain ⟨hb0, hb15⟩ := birthYearBonus_bounds r c
    obtain ⟨hs0, hs10⟩ := schoolBonus_bounds ratio r c
    have hq0 : (0 : ℚ) ≤ ratio (runnerFullName r) c.name * w + (hometownBonus ratio r c).1
        + (birthYearBonus r c).1 + (schoolBonus ratio r c).1 := by
      have := mul_nonneg hn0 hw
      linarith
    have hq1 : ratio (runnerFullName r) c.name * w + (hometownBonus ratio r c).1
        + (birthYearBonus r c).1 + (schoolBonus ratio r c).1 ≤ 100 * w + 45 := by
      have := mul_le_mul_of_nonneg_right hn100 hw
      linarith
    simp only [pyTruncInt, if_pos hq0]
    refine ⟨Int.le_floor.mpr (by exact_mod_cast hq0), Int.floor_le_floor hq1⟩

/-- C1 (amended): for every similarity function within the documented
`token_set_ratio` range and all records, the `match.py` scorer's total is
an integer in `[0, 105]` and the `ai_agent.py` scorer's total is in
`[0, 135]`; neither formula clips at 100. -/
theorem C1_score_range (ratio : String → String → ℚ)
    (hr : ∀ a b, 0 ≤ ratio a b ∧ ratio a b ≤ 100) (r : RunnerRec) (c : CandidateRec) :
    0 ≤ (compute_match_score ratio r c).1 ∧ (compute_match_score ratio r c).1 ≤ 105 ∧
    0 ≤ (ai_compute_match_score ratio r c).1 ∧ (ai_compute_match_score ratio r c).1 ≤ 135 := by
  have h1 := scoreWithWeight_fst_bounds (6 / 10) (by norm_num) ratio hr r c
  have h2 := scoreWithWeight_fst_bounds (9 / 10) (by norm_num) ratio hr r c
  have e1 : ⌊(100 : ℚ) * (6 / 10) + 45⌋ = 105 := by norm_num
  have e2 : ⌊(100 : ℚ) * (9 / 10) + 45⌋ = 135 := by norm_num
  rw [e1] at h1
  rw [e2] at h2
  exact ⟨h1.1, h1.2, h2.1, h2.2⟩

/-- Stand-in for `token_set_ratio` at the concrete inputs used below:
100 on equal strings (`token_set_ratio` of a string with itself is 100),
0 otherwise.  The concrete records below only ever query it on equal
strings, where it agrees with the library primitive. -/
def exactMatchRatio (a b : String) : ℚ := if a = b then 100 else 0

theorem exactMatchRatio_range (a b : String) :
    0 ≤ exactMatchRatio a b ∧ exactMatchRatio a b ≤ 100 := by
  unfold exactMatchRatio
  split_ifs <;> norm_num

/-- A runner agreeing with `cPerfect` on name, hometown, birth year and
team. -/
def rPerfect : RunnerRec :=
  ⟨("john"), ("smith"), some ("Boulder, CO"), some 2000, some ("Stanford")⟩

/-- A candidate agreeing with `rPerfect` on every scored field. -/
def cPerfect : CandidateRec :=
  ⟨("john smith"), some ("Boulder, CO"), some 2000, some ("Stanford")⟩

/-- C1 (counterexample): at a perfect name/hometown/birth-year/team
agreement the `match.py` scorer returns 105 and the `ai_agent.py`
scorer 135 — the claimed inclusive upper bound 100 is violated. -/
theorem C1_score_range_counterexample :
    (compute_match_score exactMatchRatio rPerfect cPerfect).1 = 105 ∧
    ¬ (compute_match_score exactMatchRatio rPerfect cPerfect).1 ≤ 100 ∧
    (ai_compute_match_score exactMatchRatio rPerfect cPerfect).1 = 135 := by
  have hname : exactMatchRatio (runnerFullName rPerfect) cPerfect.name = 100 := by decide
  have hteam : exactMatchRatio ("Stanford") ("Stanford") = 100 := by decide
  have hht : hometownBonus exactMatchRatio rPerfect cPerfect =
      (HOMETOWN_EXACT_BONUS, [("hometown_exact_bonus=") ++ toString HOMETOWN_EXACT_BONUS]) := by
    simp only [hometownBonus, rPerfect, cPerfect, Option.getD]
    simp
  have hby : birthYearBonus rPerfect cPerfect =
      (BIRTH_YEAR_EXACT_BONUS, [("birth_year_exact_bonus=") ++ toString BIRTH_YEAR_EXACT_BONUS]) := by
    simp only [birthYearBonus, rPerfect, cPerfect]
    norm_num
  have hsc : schoolBonus exactMatchRatio rPerfect cPerfect =
      (SCHOOL_FUZZY_BONUS, [("school_fuzzy_bonus=") ++ toString SCHOOL_FUZZY_BONUS]) := by
    simp only [schoolBonus, rPerfect, cPerfect, Option.getD]
    rw [if_pos (by decide), if_pos (by rw [hteam]; norm_num)]
  have key : ∀ w : ℚ, 0 ≤ w →
      (scoreWithWeight w exactMatchRatio rPerfect cPerfect).1 = ⌊100 * w + 45⌋ := by
    intro w hw
    simp only [scoreWithWeight]
    rw [hname, if_neg (by norm_num), hht, hby, hsc]
    simp only [pyTruncInt, HOMETOWN_EXACT_BONUS, BIRTH_YEAR_EXACT_BONUS, SCHOOL_FUZZY_BONUS]
    rw [if_pos (by positivity)]
    norm_num
    omega
  have k1 := key (6 / 10) (by norm_num)
  have k2 := key (9 / 10) (by norm_num)
  rw [show ⌊(100 : ℚ) * (6 / 10) + 45⌋ = 105 from by norm_num] at k1
  rw [show ⌊(100 : ℚ) * (9 / 10) + 45⌋ = 135 from by norm_num] at k2
  have k1' : (compute_match_score exactMatchRatio rPerfect cPerfect).1 = 105 := k1
  have k2' : (ai_compute_match_score exactMatchRatio rPerfect cPerfect).1 = 135 := k2
  refine ⟨k1', ?_, k2'⟩
  omega

/-- C2: when the token-set ratio of the two full names is below 75, both
scorers short-circuit to a zero total with the rejection rationale
recorded, and the result is independent of the hometown, birth-year and
team fields — no bonus is evaluated or added. -/
theorem C2_short_circuit (ratio : String → String → ℚ) (r : RunnerRec) (c : CandidateRec)
    (h : ratio (runnerFullName r) c.name < 75) :
    compute_match_score ratio r c = (0, rejectExplanation (ratio (runnerFullName r) c.name)) ∧
    ai_compute_match_score ratio r c = (0, rejectExplanation (ratio (runnerFullName r) c.name)) ∧
    ∀ r2 c2, r2.first_name = r.first_name → r2.last_name = r.last_name → c2.name = c.name →
      compute_match_score ratio r2 c2 = compute_match_score ratio r c ∧
      ai_compute_match_score ratio r2 c2 = ai_compute_match_score ratio r c := by
  have main : ∀ w, scoreWithWeight w ratio r c =
      (0, rejectExplanation (ratio (runnerFullName r) c.name)) := by
    intro w
    simp only [scoreWithWeight]
    rw [if_pos h]
  refine ⟨main (6 / 10), main (9 / 10), ?_⟩
  intro r2 c2 h1 h2 h3
  have hfn : runnerFullName r2 = runnerFullName r := by
    unfold runnerFullName
    rw [h1, h2]
  have main2 : ∀ w, scoreWithWeight w ratio r2 c2 =
      (0, rejectExplanation (ratio (runnerFullName r) c.name)) := by
    intro w
    simp only [scoreWithWeight]
    rw [hfn, h3, if_pos h]
  exact ⟨(main2 (6 / 10)).trans (main (6 / 10)).symm,
    (main2 (9 / 10)).trans (main (9 / 10)).symm⟩

/-- A runner sharing no scored field with `cPerfect`; its full name
differs from the candidate name, so `exactMatchRatio` is 0. -/
def rOther : RunnerRec := ⟨("jane"), ("doe"), some ("Boulder, CO"), some 2000, some ("Stanford")⟩

/-- C2 witness: the short-circuit theorem applied at a concrete
below-threshold pair (which even has matching bonus fields). -/
theorem C2_short_circuit_witness :
    compute_match_score exactMatchRatio rOther cPerfect =
      (0, rejectExplanation (exactMatchRatio (runnerFullName rOther) cPerfect.name)) :=
  (C2_short_circuit exactMatchRatio rOther cPerfect
    (by unfold exactMatchRatio runnerFullName rOther cPerfect
        rw [if_neg (by decide)]
        norm_num)).1

/-- C3: the decision policy maps a score of at least 90 to
`auto_verified`, `[70, 90)` to `manual_review` and below 70 to
`no_match`, and the 90/70 cut points are the named module constants
`MATCH_THRESHOLD`/`MANUAL_THRESHOLD`, not inline literals. -/
theorem C3_decision_policy (score : ℤ) :
    (90 ≤ score → decideStatus score = ("auto_verified")) ∧
    (70 ≤ score ∧ score < 90 → decideStatus score = ("manual_review")) ∧
    (score < 70 → decideStatus score = ("no_match")) ∧
    MATCH_THRESHOLD = 90 ∧ MANUAL_THRESHOLD = 70 := by
  refine ⟨fun h => ?_, fun h => ?_, fun h => ?_, rfl, rfl⟩ <;>
    (unfold decideStatus MATCH_THRESHOLD MANUAL_THRESHOLD; split_ifs <;> first | rfl | omega)

/-- C3 witness: the decision policy evaluated on one score from each
band. -/
theorem C3_decision_policy_witness :
    decideStatus 95 = ("auto_verified") ∧ decideStatus 75 = ("manual_review") ∧
    decideStatus 50 = ("no_match") :=
  ⟨(C3_decision_policy 95).1 (by decide),
   (C3_decision_policy 75).2.1 (by decide),
   (C3_decision_policy 50).2.2.1 (by decide)⟩

/-- C10: when no bonus field pair is populated on both sides, the
`match.py` scorer is capped by `int(100 * 0.6) = 60`, which is below
`MANUAL_THRESHOLD = 70`, so the decision is always `no_match` — a
name-only match can never reach `manual_review` or `auto_verified`. -/
theorem C10_name_only_capped (ratio : String → String → ℚ)
    (hr : ∀ a b, 0 ≤ ratio a b ∧ ratio a b ≤ 100) (r : RunnerRec) (c : CandidateRec)
    (hht : r.hometown.getD ("") = ("") ∨ c.hometown.getD ("") = (""))
    (hby : r.birth_year = none ∨ c.birth_year = none)
    (htm : r.college_team.getD ("") = ("") ∨ c.swim_team.getD ("") = ("")) :
    (compute_match_score ratio r c).1 ≤ 60 ∧ (60 : ℤ) < MANUAL_THRESHOLD ∧
    decideStatus (compute_match_score ratio r c).1 = ("no_match") := by
  have hhb : hometownBonus ratio r c = (0, []) := by
    simp only [hometownBonus]
    rcases hht with h | h <;> rw [h] <;> simp
  have hbb : birthYearBonus r c = (0, []) := by
    rcases hby with h | h
    · rcases hc2 : c.birth_year with _ | cb <;> simp [birthYearBonus, h, hc2]
    · rcases hr2 : r.birth_year with _ | rb <;> simp [birthYearBonus, h, hr2]
  have hsb : schoolBonus ratio r c = (0, []) := by
    simp only [schoolBonus]
    rcases htm with h | h <;> rw [h] <;> simp
  have hb : (compute_match_score ratio r c).1 ≤ 60 := by
    unfold compute_match_score
    simp only [scoreWithWeight]
    split_ifs with h
    · norm_num
    · obtain ⟨h0, h100⟩ := hr (runnerFullName r) c.name
      simp only [hhb, hbb, hsb]
      have harg0 : (0 : ℚ) ≤ ratio (runnerFullName r) c.name * (6 / 10) + 0 + 0 + 0 := by
        positivity
      simp only [pyTruncInt, if_pos harg0]
      have hle : ratio (runnerFullName r) c.name * (6 / 10) + 0 + 0 + 0 ≤ (60 : ℚ) := by
        linarith
      have := Int.floor_le_floor hle
      simpa using this
  refine ⟨hb, by norm_num [MANUAL_THRESHOLD], ?_⟩
  unfold decideStatus MATCH_THRESHOLD MANUAL_THRESHOLD
  split_ifs <;> first | rfl | omega

/-- A runner with empty hometown, absent birth year and empty team. -/
def rNameOnly : RunnerRec := ⟨("john"), ("smith"), none, none, none⟩

/-- A candidate with only a name. -/
def cNameOnly : CandidateRec := ⟨("john smith"), none, none, none⟩

/-- C10 witness: a perfect name-only match is still decided `no_match`. -/
theorem C10_name_only_capped_witness :
    (compute_match_score exactMatchRatio rNameOnly cNameOnly).1 ≤ 60 ∧
    decideStatus (compute_match_score exactMatchRatio rNameOnly cNameOnly).1 = ("no_match") :=
  have h := C10_name_only_capped exactMatchRatio exactMatchRatio_range rNameOnly cNameOnly
    (Or.inl rfl) (Or.inl rfl) (Or.inl rfl)
  ⟨h.1, h.2.2⟩

/-- C4: the classifier returns `none` (Unclassified) exactly when the
time meets no cutoff in the ladder; a `some` answer is the most-elite
(earliest) tier whose cutoff the time meets or betters; on the men's
200-free ladder, 110.00 is Internationally Ranked and 125.00 is
Unclassified rather than the least-elite tier. -/
theorem C4_classifier_most_elite (ladder : List BenchmarkTier) (t : ℚ) :
    (classify ladder t = none ↔ ∀ b ∈ ladder, b.cutoff_seconds < t) ∧
    (∀ b, classify ladder t = some b ↔
      t ≤ b.cutoff_seconds ∧ ∃ pre post, ladder = pre ++ b :: post ∧
        ∀ x ∈ pre, x.cutoff_seconds < t) ∧
    classify mens200FreeLadder (mkRat 11000 100) =
      some ⟨("Internationally Ranked"), mkRat 11300 100⟩ ∧
    classify mens200FreeLadder (mkRat 12500 100) = none := by
  refine ⟨?_, ?_, by decide, by decide⟩
  · unfold classify
    rw [List.find?_eq_none]
    constructor
    · intro h b hb
      have := h b hb
      simp only [decide_eq_true_eq] at this
      exact lt_of_not_le this
    · intro h b hb
      simp only [decide_eq_true_eq]
      exact not_le_of_lt (h b hb)
  · intro b
    unfold classify
    rw [List.find?_eq_some]
    constructor
    · rintro ⟨hp, pre, post, hlad, hpre⟩
      refine ⟨by simpa using hp, pre, post, hlad, fun x hx => ?_⟩
      have := hpre x hx
      simp only [Bool.not_eq_eq_eq_not, Bool.not_true, decide_eq_false_iff_not] at this
      exact lt_of_not_le this
    · rintro ⟨hp, pre, post, hlad, hpre⟩
      refine ⟨by simpa using hp, pre, post, hlad, fun x hx => ?_⟩
      simp only [Bool.not_eq_eq_eq_not, Bool.not_true, decide_eq_false_iff_not]
      exact not_le_of_lt (hpre x hx)

/-- C4 witness: the classifier theorem applied on the men's 200-free
ladder at the out-of-range time 125.00. -/
theorem C4_classifier_most_elite_witness :
    classify mens200FreeLadder (mkRat 12500 100) = none :=
  (C4_classifier_most_elite mens200FreeLadder (mkRat 12500 100)).1.mpr (by decide)

/-- The disjunction of the branch guards of
`_determine_event_from_context`: true iff the page text matches some
known event vocabulary. -/
def eventVocabPresent (text : String) : Bool :=
  let t := pyLower (strChars text)
  (pySubstr (strChars ("800")) t && pySubstr (strChars ("m")) t)
    || pySubstr (strChars ("1500")) t || pySubstr (strChars ("fifteen")) t
    || pySubstr (strChars ("5000")) t || pySubstr (strChars ("5k")) t
    || pySubstr (strChars ("10000")) t || pySubstr (strChars ("10k")) t
    || pySubstr (strChars ("steeplechase")) t || pySubstr (strChars ("steeple")) t
    || pySubstr (strChars ("3000")) t || pySubstr (strChars ("mile")) t

/-- The disjunction of the branch guards of
`_determine_gender_from_context`. -/
def genderVocabPresent (text : String) : Bool :=
  let t := pyLower (strChars text)
  pySubstr (strChars ("women")) t || pySubstr (strChars ("girls")) t
    || pySubstr (strChars ("men")) t || pySubstr (strChars ("boys")) t

/-- C5 (amended): an unresolvable event key gets the explicit sentinel
`"unknown_event"`, but gender never gets an unknown sentinel: the
resolver only ever returns the concrete codes `"M"` or `"F"`, with
`"M"` as the default assumption for unresolvable text. -/
theorem C5_unknown_sentinels (text : String) :
    (eventVocabPresent text = false → determine_event_from_context text = ("unknown_event")) ∧
    (genderVocabPresent text = false → determine_gender_from_context text = ("M")) ∧
    (determine_gender_from_context text = ("M") ∨ determine_gender_from_context text = ("F")) := by
  refine ⟨fun h => ?_, fun h => ?_, ?_⟩
  · simp only [eventVocabPresent] at h
    simp only [determine_event_from_context]
    split_ifs <;> first | rfl | (exfalso; simp_all)
  · simp only [genderVocabPresent] at h
    simp only [determine_gender_from_context]
    split_ifs <;> first | rfl | (exfalso; simp_all)
  · simp only [determine_gender_from_context]
    split_ifs <;> first | exact Or.inl rfl | exact Or.inr rfl

/-- C5 witness: the amended theorem applied to a page text matching no
vocabulary. -/
theorem C5_unknown_sentinels_witness :
    determine_event_from_context ("???") = ("unknown_event") ∧
    determine_gender_from_context ("???") = ("M") :=
  ⟨(C5_unknown_sentinels ("???")).1 (by decide),
   (C5_unknown_sentinels ("???")).2.1 (by decide)⟩

/-- C5 (counterexample): on a page text that resolves neither an event
key nor a gender, the event attribute does get the `"unknown_event"`
sentinel but the gender attribute gets the concrete guessed value `"M"`
— the very value returned for a men's page — not an unknown sentinel. -/
theorem C5_counterexample :
    determine_event_from_context ("1234") = ("unknown_event") ∧
    determine_gender_from_context ("1234") = ("M") ∧
    determine_gender_from_context ("the men race") = ("M") := by decide

/-- A pre-existing match row for runner 1 / swimmer 2 that a human
reviewer has already annotated. -/
def existingMatchRow : MatchRow :=
  ⟨1, 1, 2, 80, ("name_ratio=89; total_score=80"), ("manual_review"), [("name")],
    some ("looks plausible"), some ("alice"), some 20240101⟩

/-- C6: re-scoring the already-stored (runner 1, swimmer 2) pair leaves
the table completely unchanged — the reviewer fields survive, but so do
the old score, status and rationale: nothing is overwritten, because the
merge of a primary-key-less row INSERTs, violates the unique pair
constraint and is rolled back. -/
theorem C6_rescoring_leaves_row_unchanged :
    update_match_record [existingMatchRow] 1 2 95 ("auto_verified")
        ("name_ratio=95; total_score=95") = [existingMatchRow] ∧
    existingMatchRow.match_score = 80 ∧
    existingMatchRow.verification_status = ("manual_review") ∧
    existingMatchRow.reviewer_notes = some ("looks plausible") ∧
    existingMatchRow.reviewed_by = some ("alice") := by decide

/-- One parsed athlete record, as `store_athletes` receives it. -/
def athleteA : AthleteData :=
  ⟨("john"), ("smith"), ("Stanford University"), ("800m"), mkRat 10523 100, 2025, ("M")⟩

/-- C7 (counterexample): storing the same athlete twice produces two
`runners` rows with the same `(first_name, last_name)` identity key —
the second run duplicates instead of updating. -/
theorem C7_counterexample_duplicate_runner :
    ((store_athletes (store_athletes [] [athleteA]) [athleteA]).map
        (fun row => (row.first_name, row.last_name))) =
      [(("john"), ("smith")), (("john"), ("smith"))] ∧
    (store_athletes (store_athletes [] [athleteA]) [athleteA]).length = 2 := by decide

/-- C7 (amended): the candidate upsert keyed by a parsed external id is
idempotent; the source-record store always appends fresh autoincrement
rows (a second run duplicates); a repeated match-link write leaves the
table exactly as the first write left it (the second INSERT is rejected
by the unique pair constraint) rather than updating it. -/
theorem C7_idempotence_split :
    (∀ (db : List SwimmerRow) (c : CandidateProfile) (k : ℕ),
      parseSwimmerId (c.swimcloud_url.getD ("")) = some k →
      upsert_swimmer ((upsert_swimmer db c).1) c = upsert_swimmer db c) ∧
    (∀ (db : List RunnerRow) (athletes : List AthleteData),
      (store_athletes db athletes).length = db.length + athletes.length) ∧
    (∀ (db : List MatchRow) (rid sid : ℕ) (s1 : ℤ) (st1 e1 : String) (s2 : ℤ) (st2 e2 : String),
      update_match_record (update_match_record db rid sid s1 st1 e1) rid sid s2 st2 e2 =
        update_match_record db rid sid s1 st1 e1) := by
  refine ⟨?_, ?_, ?_⟩
  · intro db c k hk
    simp only [upsert_swimmer, hk]
    by_cases h1 : (db.any fun row => row.swimmer_id = k) = true
    · rw [if_pos h1]
      dsimp only
      have h2 : ((db.map fun row => if row.swimmer_id = k then swimmerRowOf k c else row).any
          fun row => row.swimmer_id = k) = true := by
        rw [List.any_eq_true] at h1 ⊢
        obtain ⟨x, hx, hxk⟩ := h1
        simp only [decide_eq_true_eq] at hxk
        refine ⟨if x.swimmer_id = k then swimmerRowOf k c else x, List.mem_map_of_mem _ hx, ?_⟩
        rw [if_pos hxk]
        simp [swimmerRowOf]
      rw [if_pos h2, List.map_map]
      congr 1
      apply List.map_congr_left
      intro x _
      simp only [Function.comp_apply]
      by_cases hxk : x.swimmer_id = k
      · rw [if_pos hxk, if_pos (show (swimmerRowOf k c).swimmer_id = k by simp [swimmerRowOf])]
      · rw [if_neg hxk, if_neg hxk]
    · rw [if_neg h1]
      dsimp only
      have h2 : (((db ++ [swimmerRowOf k c]).any) fun row => row.swimmer_id = k) = true := by
        simp [List.any_append, swimmerRowOf]
      rw [if_pos h2]
      congr 1
      rw [List.map_append]
      have hdb : (db.map fun row => if row.swimmer_id = k then swimmerRowOf k c else row) = db := by
        conv_rhs => rw [← List.map_id db]
        apply List.map_congr_left
        intro x hx
        have hne : ¬ x.swimmer_id = k := by
          intro hxe
          apply h1
          rw [List.any_eq_true]
          exact ⟨x, hx, by simp [hxe]⟩
        simp [hne]
      rw [hdb]
      simp [swimmerRowOf]
  · intro db athletes
    induction athletes generalizing db with
    | nil => rfl
    | cons a as ih =>
      have step : store_athletes db (a :: as) = store_athletes (db ++ [⟨nextRunnerId db,
          a.first_name, a.last_name, a.college_team, a.event, a.performance_time,
          a.year_scraped, a.gender, none⟩]) as := rfl
      rw [step, ih]
      simp only [List.length_append, List.length_cons, List.length_nil]
      omega
  · intro db rid sid s1 st1 e1 s2 st2 e2
    simp only [update_match_record]
    by_cases h1 : (db.any fun row => row.runner_id = rid ∧ row.swimmer_id = sid) = true
    · rw [if_pos h1]
      rw [if_pos h1]
    · rw [if_neg h1]
      have h2 : (((db ++ [(⟨nextMatchId db, rid, sid, s1, e1, st1, deriveMatchedFields e1,
          none, none, none⟩ : MatchRow)]).any)
          fun row => row.runner_id = rid ∧ row.swimmer_id = sid) = true := by
        rw [List.any_eq_true]
        refine ⟨(⟨nextMatchId db, rid, sid, s1, e1, st1, deriveMatchedFields e1, none, none,
          none⟩ : MatchRow), List.mem_append_right _ (List.mem_singleton_self _), by simp⟩
      rw [if_pos h2]

/-- A candidate profile with a well-formed SwimCloud URL (external id
123). -/
def cSwimProfile : CandidateProfile :=
  ⟨("mary jones"), some ("Austin, TX"), none, some ("Texas"),
    some ("https://www.swimcloud.com/swimmer/123/")⟩

/-- C7 witness: each conjunct of the amended theorem applied at a
concrete input. -/
theorem C7_idempotence_split_witness :
    upsert_swimmer ((upsert_swimmer [] cSwimProfile).1) cSwimProfile =
      upsert_swimmer [] cSwimProfile ∧
    (store_athletes [] [athleteA]).length = ([] : List RunnerRow).length + [athleteA].length ∧
    update_match_record (update_match_record [] 1 2 80 ("manual_review") ("e1")) 1 2 95
        ("auto_verified") ("e2") =
      update_match_record [] 1 2 80 ("manual_review") ("e1") :=
  ⟨(C7_idempotence_split).1 [] cSwimProfile 123 (by decide),
   (C7_idempotence_split).2.1 [] [athleteA],
   (C7_idempotence_split).2.2 [] 1 2 80 ("manual_review") ("e1") 95 ("auto_verified") ("e2")⟩

/-- C8 (amended): both normalizers parse `"1:48.23"` to 108.23 canonical
seconds; `"34:00:00"` parses to 122400.00 seconds in the standards
loader (its `HH:MM:SS` branch), while the TFRRS processor's normalizer —
which accepts only `(\d+:)?\d+(\.\d+)?` — extracts the leading `"34:00"`
and yields 2040.00 seconds. -/
theorem C8_time_normalizer_values :
    parse_time_to_seconds ("1:48.23") = some (mkRat 10823 100) ∧
    parse_time_to_seconds ("34:00:00") = some (mkRat 122400 1) ∧
    tfrrs_parse_time_to_seconds ("1:48.23") = some (mkRat 10823 100) ∧
    tfrrs_parse_time_to_seconds ("34:00:00") = some (mkRat 2040 1) := by decide

/-- C8 (counterexample): the TFRRS normalizer, one of the two cited time
normalizers, parses `"34:00:00"` to 2040.00 seconds, not to the claimed
122400.00. -/
theorem C8_counterexample_tfrrs_hms :
    tfrrs_parse_time_to_seconds ("34:00:00") = some (mkRat 2040 1) ∧
    ¬ tfrrs_parse_time_to_seconds ("34:00:00") = some (mkRat 122400 1) := by decide

/-! ## No-digit inputs fail to parse (support for C9) -/

/-- The input contains no decimal digit at all — in particular it is
empty, whitespace-only, or free of any numeric time pattern. -/
def NoDigit (l : List Char) : Prop := ∀ c ∈ l, c.isDigit = false

theorem noDigit_subset {l1 l2 : List Char} (hsub : l1 ⊆ l2) (h : NoDigit l2) : NoDigit l1 :=
  fun c hc => h c (hsub hc)

theorem trimWS_subset (cs : List Char) : trimWS cs ⊆ cs := by
  intro c hc
  unfold trimWS at hc
  rw [List.mem_reverse] at hc
  have h1 := (List.dropWhile_sublist _).subset hc
  rw [List.mem_reverse] at h1
  exact (List.dropWhile_sublist _).subset h1

theorem takeWhile_isDigit_eq_nil {l : List Char} (h : NoDigit l) :
    l.takeWhile Char.isDigit = [] := by
  cases l with
  | nil => rfl
  | cons c cs => simp [List.takeWhile_cons, h c (List.mem_cons_self c cs)]

theorem dropWhile_isDigit_eq_self {l : List Char} (h : NoDigit l) :
    l.dropWhile Char.isDigit = l := by
  cases l with
  | nil => rfl
  | cons c cs => simp [List.dropWhile_cons, h c (List.mem_cons_self c cs)]

theorem signStrip_subset (t : List Char) :
    (if t.head? = some '-' ∨ t.head? = some '+' then t.tail else t) ⊆ t := by
  split_ifs
  · exact (List.tail_sublist t).subset
  · exact fun x hx => hx

theorem pyIntChars_noDigit {cs : List Char} (h : NoDigit cs) : pyIntChars cs = none := by
  have ht : NoDigit (trimWS cs) := noDigit_subset (trimWS_subset cs) h
  have key : ∀ t2 : List Char, t2 ⊆ trimWS cs → ¬(t2 ≠ [] ∧ t2.all Char.isDigit = true) := by
    rintro t2 hsub ⟨hne, hall⟩
    rw [List.all_eq_true] at hall
    obtain ⟨c0, rest, rfl⟩ := List.exists_cons_of_ne_nil hne
    have hd := hall c0 (List.mem_cons_self _ _)
    have hf := ht c0 (hsub (List.mem_cons_self _ _))
    rw [hf] at hd
    exact Bool.false_ne_true hd
  simp only [pyIntChars]
  rw [if_neg (key _ (signStrip_subset _))]

theorem pyFloatDec_noDigit {cs : List Char} (h : NoDigit cs) : pyFloatDec cs = none := by
  have ht : NoDigit (trimWS cs) := noDigit_subset (trimWS_subset cs) h
  simp only [pyFloatDec]
  generalize hg : (if (trimWS cs).head? = some '-' ∨ (trimWS cs).head? = some '+'
      then (trimWS cs).tail else trimWS cs) = t2
  have ht2 : NoDigit t2 := by
    rw [← hg]
    exact noDigit_subset (signStrip_subset _) ht
  rw [takeWhile_isDigit_eq_nil ht2, dropWhile_isDigit_eq_self ht2]
  rcases t2 with _ | ⟨c0, rest⟩
  · rw [if_pos rfl, if_pos rfl]
  · have hrest : NoDigit rest := fun x hx => ht2 x (List.mem_cons_of_mem c0 hx)
    rw [if_neg (by simp)]
    by_cases hc : (c0 :: rest).head? = some '.'
    · rw [if_pos hc,
        takeWhile_isDigit_eq_nil (show NoDigit (c0 :: rest).tail from hrest)]
      rw [if_neg]
      simp
    · rw [if_neg hc]

theorem matchDecTail_noDigit {cs : List Char} (h : NoDigit cs) : matchDecTail cs = none := by
  simp only [matchDecTail, takeWhile_isDigit_eq_nil h]
  simp

theorem matchTimeDec_noDigit {cs : List Char} (h : NoDigit cs) : matchTimeDec cs = none := by
  simp only [matchTimeDec, takeWhile_isDigit_eq_nil h, matchDecTail_noDigit h]
  simp

theorem matchIntTail_noDigit {cs : List Char} (h : NoDigit cs) : matchIntTail cs = none := by
  simp only [matchIntTail, takeWhile_isDigit_eq_nil h]
  simp

theorem matchTimeInt_noDigit {cs : List Char} (h : NoDigit cs) : matchTimeInt cs = none := by
  simp only [matchTimeInt, takeWhile_isDigit_eq_nil h, matchIntTail_noDigit h]
  simp

theorem searchPat_noDigit (f : List Char → Option (List Char))
    (hf : ∀ l : List Char, NoDigit l → f l = none) :
    ∀ cs : List Char, NoDigit cs → searchPat f cs = none := by
  intro cs
  induction cs with
  | nil =>
    intro h
    simp [searchPat, hf [] h]
  | cons c cs ih =>
    intro h
    have h' : NoDigit cs := fun x hx => h x (List.mem_cons_of_mem c hx)
    simp [searchPat, hf _ h, ih h']

theorem splitOnChar_ne_nil (sep : Char) (cs : List Char) : splitOnChar sep cs ≠ [] := by
  cases cs with
  | nil => simp [splitOnChar]
  | cons c cs =>
    simp only [splitOnChar]
    rcases h : splitOnChar sep cs with _ | ⟨hd, tl⟩
    · simp
    · split_ifs <;> simp

theorem splitOnChar_subset (sep : Char) :
    ∀ (cs : List Char), ∀ p ∈ splitOnChar sep cs, p ⊆ cs := by
  intro cs
  induction cs with
  | nil =>
    intro p hp
    simp only [splitOnChar, List.mem_singleton] at hp
    simp [hp]
  | cons c cs ih =>
    intro p hp
    simp only [splitOnChar] at hp
    rcases hsp : splitOnChar sep cs with _ | ⟨hd, tl⟩
    · exact absurd hsp (splitOnChar_ne_nil sep cs)
    · rw [hsp] at hp
      have hp2 : p ∈ if c = sep then [] :: hd :: tl else (c :: hd) :: tl := hp
      have hmemhd : hd ∈ splitOnChar sep cs := by
        rw [hsp]
        exact List.mem_cons_self hd tl
      by_cases hc : c = sep
      · rw [if_pos hc] at hp2
        rcases List.mem_cons.mp hp2 with rfl | hp3
        · exact List.nil_subset _
        · have hmem : p ∈ splitOnChar sep cs := by
            rw [hsp]
            exact hp3
          exact fun x hx => List.mem_cons_of_mem c (ih p hmem hx)
      · rw [if_neg hc] at hp2
        rcases List.mem_cons.mp hp2 with rfl | hp3
        · exact List.cons_subset_cons c (ih hd hmemhd)
        · have hmem : p ∈ splitOnChar sep cs := by
            rw [hsp]
            exact List.mem_cons_of_mem hd hp3
          exact fun x hx => List.mem_cons_of_mem c (ih p hmem hx)

theorem splitOnSlashSep_ne_nil (cs : List Char) : splitOnSlashSep cs ≠ [] := by
  induction cs using splitOnSlashSep.induct with
  | case1 rest ih =>
    rw [splitOnSlashSep.eq_1]
    simp
  | case2 c rest hside heq ih =>
    rw [splitOnSlashSep.eq_2 c rest hside, heq]
    simp
  | case3 c rest hside hd tl heq ih =>
    rw [splitOnSlashSep.eq_2 c rest hside, heq]
    simp
  | case4 =>
    rw [splitOnSlashSep.eq_3]
    simp

theorem splitOnSlashSep_subset :
    ∀ (cs : List Char), ∀ p ∈ splitOnSlashSep cs, p ⊆ cs := by
  intro cs
  induction cs using splitOnSlashSep.induct with
  | case1 rest ih =>
    intro p hp
    rw [splitOnSlashSep.eq_1] at hp
    rcases List.mem_cons.mp hp with rfl | hp
    · exact List.nil_subset _
    · intro x hx
      have hxr := ih p hp hx
      simp only [List.mem_cons]
      right; right; right
      exact hxr
  | case2 c rest hside heq ih =>
    intro p hp
    rw [splitOnSlashSep.eq_2 c rest hside, heq] at hp
    rcases List.mem_singleton.mp hp with rfl
    intro x hx
    rcases List.mem_singleton.mp hx with rfl
    exact List.mem_cons_self _ _
  | case3 c rest hside hd tl heq ih =>
    intro p hp
    rw [splitOnSlashSep.eq_2 c rest hside, heq] at hp
    have hmemhd : hd ∈ splitOnSlashSep rest := by
      rw [heq]
      exact List.mem_cons_self hd tl
    rcases List.mem_cons.mp hp with rfl | hp3
    · exact List.cons_subset_cons c (ih hd hmemhd)
    · have hmem : p ∈ splitOnSlashSep rest := by
        rw [heq]
        exact List.mem_cons_of_mem hd hp3
      exact fun x hx => List.mem_cons_of_mem c (ih p hmem hx)
  | case4 =>
    intro p hp
    rw [splitOnSlashSep.eq_3] at hp
    rcases List.mem_singleton.mp hp with rfl
    exact List.nil_subset _

theorem parseTimeBody_noDigit {t : List Char} (h : NoDigit t) : parseTimeBody t = none := by
  simp only [parseTimeBody]
  split_ifs with h2 h1
  · rcases hsp : splitOnChar ':' t with _ | ⟨p0, _ | ⟨p1, _ | ⟨p2, _ | rest⟩⟩⟩ <;> try rfl
    have hp0 : NoDigit p0 := noDigit_subset
      (splitOnChar_subset ':' t p0 (by rw [hsp]; exact List.mem_cons_self _ _)) h
    dsimp only
    rw [pyIntChars_noDigit hp0]
  · rcases hsp : splitOnChar ':' t with _ | ⟨p0, _ | ⟨p1, _ | rest⟩⟩ <;> try rfl
    have hp0 : NoDigit p0 := noDigit_subset
      (splitOnChar_subset ':' t p0 (by rw [hsp]; exact List.mem_cons_self _ _)) h
    dsimp only
    rw [pyIntChars_noDigit hp0]
  · rw [pyFloatDec_noDigit h]

/-- C9: an input with no digit character — in particular an empty
string, a whitespace-only string, or any string with no numeric time
pattern — makes both time normalizers return `None`; neither ever
falls back to zero or any other default number. -/
theorem C9_no_default_zero (s : String) (h : NoDigit (strChars s)) :
    parse_time_to_seconds s = none ∧ tfrrs_parse_time_to_seconds s = none := by
  have ht1 : NoDigit (trimWS (strChars s)) := noDigit_subset (trimWS_subset _) h
  constructor
  · simp only [parse_time_to_seconds]
    split_ifs with h0
    · rfl
    · rcases hsp : splitOnSlashSep (trimWS (strChars s)) with _ | ⟨a, _ | ⟨b, _ | rest⟩⟩
      · exact absurd hsp (splitOnSlashSep_ne_nil _)
      · try dsimp only
        exact parseTimeBody_noDigit (noDigit_subset (trimWS_subset _) ht1)
      · have hb : NoDigit b := noDigit_subset
          (splitOnSlashSep_subset _ b
            (by rw [hsp]; exact List.mem_cons_of_mem a (List.mem_cons_self b [])))
          ht1
        try dsimp only
        exact parseTimeBody_noDigit
          (noDigit_subset (trimWS_subset _) (noDigit_subset (trimWS_subset _) hb))
      · try dsimp only
        exact parseTimeBody_noDigit (noDigit_subset (trimWS_subset _) ht1)
  · simp only [tfrrs_parse_time_to_seconds]
    split_ifs with h0
    · rfl
    · rw [searchPat_noDigit matchTimeDec (fun l hl => matchTimeDec_noDigit hl) _ ht1,
        searchPat_noDigit matchTimeInt (fun l hl => matchTimeInt_noDigit hl) _ ht1]

/-- C9 witness: the no-default theorem applied to `"abc"`, an input with
no numeric pattern. -/
theorem C9_no_default_zero_witness :
    parse_time_to_seconds ("abc") = none ∧ tfrrs_parse_time_to_seconds ("abc") = none :=
  C9_no_default_zero ("abc") (by unfold NoDigit; decide)

/-- C1 witness: the amended range theorem applied at the concrete
perfect-agreement pair. -/
theorem C1_score_range_witness :
    0 ≤ (compute_match_score exactMatchRatio rPerfect cPerfect).1 ∧
    (compute_match_score exactMatchRatio rPerfect cPerfect).1 ≤ 105 ∧
    0 ≤ (ai_compute_match_score exactMatchRatio rPerfect cPerfect).1 ∧
    (ai_compute_match_score exactMatchRatio rPerfect cPerfect).1 ≤ 135 :=
  C1_score_range exactMatchRatio exactMatchRatio_range rPerfect cPerfect
